import Mathlib

/-!
Verification of the natural-language specification of the
Bloodlinebots/fileshare Telegram bot (`bot.py`) against a shallow
embedding of its code.

Python strings are modelled as `List Char` (a Python `str` is a sequence
of code points).  Fallible external calls (Telegram transport, MongoDB
storage) are modelled by environment records that fix the outcome of each
call; a raised exception is the `none` / `false` outcome.  Each handler
becomes a pure function from its environment and inputs to the trace of
calls it performs and the resulting durable state.
-/

namespace Bot

/-! ## Deep-link codec primitives

`bot.py` builds payloads with the f-string `f"get-{sent.message_id}"`
(line 73) and decodes them with
`args[0].startswith("get-")` followed by `int(args[0].split("-")[1])`
(lines 144-145).  The helpers below embed the Python builtins used there:
`str.startswith`, `str.split` on the separator `"-"`, decimal `str(int)`
formatting, and `int(str)` parsing (ASCII form: surrounding whitespace,
an optional sign, then a nonempty digit run; the underscore-grouping and
non-ASCII-digit forms Python also accepts are not modelled, as no claim
depends on them).
-/

/-- ASCII decimal digit test. -/
def isDig (c : Char) : Bool := 48 ≤ c.toNat && c.toNat ≤ 57

/-- Value of an ASCII digit character. -/
def digVal (c : Char) : Nat := c.toNat - 48

/-- Value of a most-significant-first digit string. -/
def digitsVal (cs : List Char) : Nat := cs.foldl (fun a c => 10 * a + digVal c) 0

/-- All characters are ASCII digits. -/
def allDig (cs : List Char) : Bool := cs.all isDig

/-- Characters removed by Python `str.strip()` (ASCII whitespace). -/
def isSpace (c : Char) : Bool :=
  c.toNat = 32 || c.toNat = 9 || c.toNat = 10 || c.toNat = 13 || c.toNat = 11 || c.toNat = 12

/-- Python `str.strip()`: drop whitespace from both ends. -/
def pyStrip (cs : List Char) : List Char :=
  ((cs.dropWhile isSpace).reverse.dropWhile isSpace).reverse

/-- Python `int(str)`: strip whitespace, optional sign, nonempty digit run. -/
def pyIntL (cs : List Char) : Option Int :=
  match pyStrip cs with
  | [] => none
  | c :: ds =>
    if c = '+' then
      if ds ≠ [] && allDig ds then some (Int.ofNat (digitsVal ds)) else none
    else if c = '-' then
      if ds ≠ [] && allDig ds then some (-(Int.ofNat (digitsVal ds))) else none
    else
      if allDig (c :: ds) then some (Int.ofNat (digitsVal (c :: ds))) else none

/-- Python `str.split(sep)` for a one-character separator `sep`. -/
def splitOnChar (sep : Char) : List Char → List (List Char)
  | [] => [[]]
  | c :: cs =>
    if c = sep then [] :: splitOnChar sep cs
    else
      match splitOnChar sep cs with
      | [] => [[c]]
      | t :: ts => (c :: t) :: ts

/-- Python `str.startswith(pre)`. -/
def startsWithL : List Char → List Char → Bool
  | [], _ => true
  | _ :: _, [] => false
  | p :: ps, c :: cs => p == c && startsWithL ps cs

/-- Fuel-based digit accumulator behind `natRepr`; the fuel is only there
to make the recursion structural, `natRepr` always supplies enough. -/
def natReprAux : Nat → Nat → List Char → List Char
  | 0, _, acc => acc
  | fuel + 1, n, acc =>
    if n / 10 = 0 then Nat.digitChar (n % 10) :: acc
    else natReprAux fuel (n / 10) (Nat.digitChar (n % 10) :: acc)

/-- Decimal representation of a natural number, as Python `str(n)`
(equivalently, the format applied by the f-string on line 73). -/
def natRepr (n : Nat) : List Char := natReprAux (n + 1) n []

/-- `Encode`: line 73, `payload = f"get-{sent.message_id}"`. -/
def encodeL (n : Nat) : List Char := "get-".data ++ natRepr n

/-- `Decode`: lines 144-145, the guard `args[0].startswith("get-")`
followed by `int(args[0].split("-")[1])`.  `none` is `MalformedPayload`:
either the guard fails (the handler then shows the welcome menu) or the
`int` call raises (caught by the handler's outer `except`).  Note the
decoded segment is only the text between the first and second `-`. -/
def pyDecodeL (s : List Char) : Option Int :=
  if startsWithL "get-".data s then
    match (splitOnChar '-' s)[1]? with
    | some seg => pyIntL seg
    | none => none
  else none

/-- `Decode` on a Lean string literal (convenience wrapper). -/
def decodeS (s : String) : Option Int := pyDecodeL s.data

/-! ## Membership gate (`is_user_joined`, lines 45-51)

The transport call `bot.get_chat_member` either returns a member object
with a `status` string or raises; `MemberLookup` fixes that outcome.
`is_user_joined` is total (returns a plain `Bool`): the source wraps the
lookup in `try/except` and returns `False` on any exception, so it never
raises to its caller. -/

/-- Outcome of the `get_chat_member` transport call. -/
inductive MemberLookup where
  | ok (status : String)
  | err
deriving DecidableEq

/-- Lines 45-51: status in `("member", "administrator", "creator")`,
`False` on any exception. -/
def is_user_joined : MemberLookup → Bool
  | .ok s => s == "member" || s == "administrator" || s == "creator"
  | .err => false

/-! ## Data model: the ledger

A document of the `video_logs` collection (lines 155-159): recipient chat
id, delivered message id, and expiry timestamp.  Time is in seconds, so
`timedelta(hours=1)` is `3600`. -/

/-- One DeliveryRecord, as inserted on lines 155-159. -/
structure DeliveryRecord where
  chat_id : Nat
  message_id : Nat
  delete_at : Nat
deriving DecidableEq

/-! ## The `/start` handler (lines 131-172)

Control flow of `start`:
gate check first (lines 136-142: join prompt and return on denial); then,
if an argument is present and starts with `"get-"`, decode it, copy the
vault message to the requester (line 146), send the auto-delete notice
(line 151), and insert the DeliveryRecord (line 155).  Every exception in
that chain is caught by the outer `except` (line 171), which only calls
`logger.error` — no message is sent to the requester from the handler's
error path.  Otherwise (line 160) the welcome menu is shown.  `StartEnv` fixes the
outcome of each external call; the reply sends that carry the join prompt
and the welcome menu are modelled as succeeding (their failure would only
replace the reply by a log entry and touches no durable state). -/

/-- Outcomes of the external calls `start` makes on the delivery path. -/
structure StartEnv where
  /-- Outcome of `get_chat_member` inside `is_user_joined`. -/
  lookup : MemberLookup
  /-- `copy_message` (line 146): `some sentMessageId`, or `none` if it raised. -/
  copyResult : Option Nat
  /-- `send_message` of the auto-delete notice (line 151) succeeded. -/
  notifyOk : Bool
  /-- `collection.insert_one` (line 155) succeeded. -/
  insertOk : Bool
deriving DecidableEq

/-- Trace events of one `start` invocation. -/
inductive StartAction where
  /-- Join prompt reply (line 138). -/
  | joinPrompt
  /-- Welcome menu reply (line 165). -/
  | welcome
  /-- `copy_message(chat_id=user, from_chat_id=VAULT, message_id=mid)` invoked. -/
  | copyCall (destChat : Nat) (vaultMsgId : Int)
  /-- Auto-delete notice `send_message` invoked. -/
  | notifyCall (destChat : Nat)
  /-- `collection.insert_one` invoked with this record. -/
  | insertCall (r : DeliveryRecord)
  /-- `logger.error` in the outer `except` (line 172). -/
  | logStartError
deriving DecidableEq

/-- Actions of `start` that put a message in front of the requester. -/
def isUserMessage : StartAction → Bool
  | .joinPrompt => true
  | .welcome => true
  | .notifyCall _ => true
  | _ => false

/-- The `start` handler, lines 131-172.  `args` is `context.args`, `now`
is `datetime.utcnow()` at the insert.  Returns the trace of calls and the
ledger after the invocation. -/
def start (env : StartEnv) (userId : Nat) (args : List (List Char)) (now : Nat)
    (ledger : List DeliveryRecord) : List StartAction × List DeliveryRecord :=
  if is_user_joined env.lookup then
    match args with
    | [] => ([.welcome], ledger)
    | a :: _ =>
      if startsWithL "get-".data a then
        match pyDecodeL a with
        | none => ([.logStartError], ledger)
        | some mid =>
          match env.copyResult with
          | none => ([.copyCall userId mid, .logStartError], ledger)
          | some sentId =>
            if env.notifyOk then
              if env.insertOk then
                ([.copyCall userId mid, .notifyCall userId,
                  .insertCall ⟨userId, sentId, now + 3600⟩],
                 ledger ++ [⟨userId, sentId, now + 3600⟩])
              else
                ([.copyCall userId mid, .notifyCall userId,
                  .insertCall ⟨userId, sentId, now + 3600⟩, .logStartError],
                 ledger)
            else
              ([.copyCall userId mid, .notifyCall userId, .logStartError], ledger)
      else ([.welcome], ledger)
  else ([.joinPrompt], ledger)

/-! ## The Reaper (`auto_delete`, lines 175-195)

One iteration of the `while True` body.  The per-record `try` block wraps
`delete_message`, the recipient notice, and `collection.delete_one` in
that order: an exception in any of them jumps to the per-record `except`
(line 189), which only logs — so a record leaves the collection exactly
when all three calls succeed.  `findOk` models the outer `try`: if
`collection.find` raises, the cycle logs and changes nothing. -/

/-- Outcomes of the external calls one Reaper cycle makes, per record. -/
structure ReapEnv where
  /-- `collection.find` (line 179) succeeded. -/
  findOk : Bool
  /-- `delete_message` (line 183) succeeds on this record. -/
  deleteOk : DeliveryRecord → Bool
  /-- Recipient notice `send_message` (line 184) succeeds on this record. -/
  notifyOk : DeliveryRecord → Bool
  /-- `collection.delete_one` (line 188) succeeds on this record. -/
  removeOk : DeliveryRecord → Bool

/-- Trace events of the per-record `try` block. -/
inductive ReapAction where
  /-- `delete_message` invoked for this record. -/
  | deleteCall (r : DeliveryRecord)
  /-- Recipient notice `send_message` invoked for this record. -/
  | notifyCall (r : DeliveryRecord)
  /-- `collection.delete_one` invoked for this record. -/
  | removeCall (r : DeliveryRecord)
  /-- `logger.error` in the per-record `except` (line 190). -/
  | logDeleteError (r : DeliveryRecord)
deriving DecidableEq

/-- Lines 181-190, the per-record `try` block: the trace of calls made
for one due record, and whether the record was removed from storage. -/
def reapAttempt (env : ReapEnv) (r : DeliveryRecord) : List ReapAction × Bool :=
  if env.deleteOk r then
    if env.notifyOk r then
      if env.removeOk r then
        ([.deleteCall r, .notifyCall r, .removeCall r], true)
      else
        ([.deleteCall r, .notifyCall r, .removeCall r, .logDeleteError r], false)
    else ([.deleteCall r, .notifyCall r, .logDeleteError r], false)
  else ([.deleteCall r, .logDeleteError r], false)

/-- Line 179: `collection.find({"delete_at": {"$lte": now}})`. -/
def dueRecords (now : Nat) (ledger : List DeliveryRecord) : List DeliveryRecord :=
  ledger.filter (fun r => decide (r.delete_at ≤ now))

/-- One iteration of `auto_delete` (lines 176-195): the ledger after the
cycle.  A record survives unless it is due and its `reapAttempt` chain
fully succeeded. -/
def auto_delete_cycle (env : ReapEnv) (now : Nat) (ledger : List DeliveryRecord) :
    List DeliveryRecord :=
  if env.findOk then
    ledger.filter (fun r => !(decide (r.delete_at ≤ now) && (reapAttempt env r).2))
  else ledger

/-- The calls one `auto_delete` iteration makes (lines 181-190), in order. -/
def auto_delete_cycle_trace (env : ReapEnv) (now : Nat) (ledger : List DeliveryRecord) :
    List ReapAction :=
  if env.findOk then (dueRecords now ledger).flatMap (fun r => (reapAttempt env r).1)
  else []

/-! ## Admin upload and preview resolution (lines 54-128)

`PENDING_PREVIEWS` is a Python dict keyed by the admin user id (line 42),
modelled as a function `Nat → Option (List Char)` holding the stored
caption.  `handle_video` (lines 54-106): on a thumbnail-less upload whose
vault copy succeeded, `PENDING_PREVIEWS[user_id] = {"caption": caption}`
(line 99) — a plain dict assignment, so a second submission overwrites.
`handle_photo` (lines 109-128): `PENDING_PREVIEWS.pop(user_id)` first
(line 117), then the announcement — the entry is gone as soon as the
matching image arrives, before (and regardless of) the announcement send.
The reply sends and the announcement `send_photo` are modelled as
succeeding; `copyResult` and `thumbOk` fix the two outcomes the pending
table depends on. -/

/-- The `PENDING_PREVIEWS` dict (line 42). -/
def PendingMap : Type := Nat → Option (List Char)

/-- Outcomes of the external calls `handle_video` makes. -/
structure VideoEnv where
  /-- Vault `copy_message` (line 67): `some vaultMessageId`, or `none` if raised. -/
  copyResult : Option Nat
  /-- A preview image was obtained from the video thumbnail (lines 78-88). -/
  thumbOk : Bool
deriving DecidableEq

/-- Trace events of the admin handlers. -/
inductive AdminAction where
  /-- Line 60: unauthorized reply. -/
  | unauthorizedReply
  /-- Line 64: wrong media kind reply. -/
  | invalidContentReply
  /-- Line 67: vault `copy_message` invoked. -/
  | vaultCopyCall
  /-- `send_photo` announcement to the main channel with this photo and caption. -/
  | previewPost (photoRef : Nat) (caption : List Char)
  /-- Line 97: posted confirmation. -/
  | postedReply
  /-- Line 102: no-thumbnail reply, preview now pending. -/
  | noThumbReply
  /-- Line 106: generic failure reply from the `except` block. -/
  | errorReply
  /-- Line 128: no pending preview reply. -/
  | noPendingReply
  /-- Line 126: preview posted confirmation. -/
  | previewPostedReply
  /-- Line 105: `logger.error` in `handle_video`. -/
  | logVideoError
deriving DecidableEq

/-- Line 75: the announcement caption built from the new vault id
(through line 74's `start_link`). -/
def mkCaption (botUsername : List Char) (vaultId : Nat) : List Char :=
  "🎬 <b>New Content</b>\n\n👉 <a href=\"https://t.me/".data ++ botUsername
    ++ "?start=".data ++ encodeL vaultId ++ "\">Watch Now</a>".data

/-- `handle_video` (lines 54-106).  `isAdmin` is `user_id in ADMIN_IDS`,
`hasVideo` is `message.video` truthiness.  The announcement photo sent on
line 91 is the fetched thumbnail, modelled by `photoRef 0`. -/
def handle_video (env : VideoEnv) (botUsername : List Char) (uid : Nat)
    (isAdmin : Bool) (hasVideo : Bool) (pending : PendingMap) :
    List AdminAction × PendingMap :=
  if !isAdmin then ([.unauthorizedReply], pending)
  else if !hasVideo then ([.invalidContentReply], pending)
  else
    match env.copyResult with
    | none => ([.vaultCopyCall, .logVideoError, .errorReply], pending)
    | some vid =>
      if env.thumbOk then
        ([.vaultCopyCall, .previewPost 0 (mkCaption botUsername vid), .postedReply],
         pending)
      else
        ([.vaultCopyCall, .noThumbReply],
         fun k => if k = uid then some (mkCaption botUsername vid) else pending k)

/-- `handle_photo` (lines 109-128).  `photoRef` is
`message.photo[-1].file_id`.  A non-admin sender returns silently
(line 114); with a pending entry it is popped (line 117) and the
announcement posted with the stored caption. -/
def handle_photo (uid : Nat) (isAdmin : Bool) (photoRef : Nat) (pending : PendingMap) :
    List AdminAction × PendingMap :=
  if !isAdmin then ([], pending)
  else
    match pending uid with
    | some caption =>
      ([.previewPost photoRef caption, .previewPostedReply],
       fun k => if k = uid then none else pending k)
    | none => ([.noPendingReply], pending)

/-! ## Codec lemmas -/

theorem digitChar_isDig : ∀ d : Nat, d < 10 → isDig (Nat.digitChar d) = true := by decide

theorem digitChar_digVal : ∀ d : Nat, d < 10 → digVal (Nat.digitChar d) = d := by decide

theorem digitsVal_snoc (xs : List Char) (c : Char) :
    digitsVal (xs ++ [c]) = 10 * digitsVal xs + digVal c := by
  simp [digitsVal, List.foldl_append]

theorem natReprAux_append (fuel : Nat) :
    ∀ n acc, natReprAux fuel n acc = natReprAux fuel n [] ++ acc := by
  induction fuel with
  | zero => intro n acc; rfl
  | succ fuel ih =>
    intro n acc
    by_cases h : n / 10 = 0
    · simp [natReprAux, h]
    · simp only [natReprAux, h, if_false]
      rw [ih (n / 10) (Nat.digitChar (n % 10) :: acc),
        ih (n / 10) [Nat.digitChar (n % 10)], List.append_assoc]
      rfl

theorem natReprAux_spec (fuel : Nat) :
    ∀ n, 0 < fuel → n < 10 ^ fuel →
      allDig (natReprAux fuel n []) = true ∧
      digitsVal (natReprAux fuel n []) = n ∧
      natReprAux fuel n [] ≠ [] := by
  induction fuel with
  | zero => intro n h; omega
  | succ fuel ih =>
    intro n _ hn
    by_cases h : n / 10 = 0
    · have hn10 : n < 10 := by omega
      have hmod : n % 10 = n := Nat.mod_eq_of_lt hn10
      simp [natReprAux, h, allDig, digitsVal, hmod,
        digitChar_isDig n hn10, digitChar_digVal n hn10]
    · have hge : 10 ≤ n := by
        rcases Nat.lt_or_ge n 10 with h10 | h10
        · exact absurd (Nat.div_eq_of_lt h10) h
        · exact h10
      have hfuel : 0 < fuel := by
        by_contra hf
        have : fuel = 0 := by omega
        subst this
        simp at hn
        omega
      have hdiv : n / 10 < 10 ^ fuel := by
        rw [Nat.div_lt_iff_lt_mul (show 0 < 10 by omega)]
        calc n < 10 ^ (fuel + 1) := hn
          _ = 10 ^ fuel * 10 := by ring
      obtain ⟨hA, hV, hN⟩ := ih (n / 10) hfuel hdiv
      have hrw : natReprAux (fuel + 1) n []
          = natReprAux fuel (n / 10) [] ++ [Nat.digitChar (n % 10)] := by
        simp only [natReprAux, h, if_false]
        exact natReprAux_append fuel (n / 10) [Nat.digitChar (n % 10)]
      have hm : n % 10 < 10 := Nat.mod_lt n (by omega)
      refine ⟨?_, ?_, ?_⟩
      · rw [hrw]
        simp [allDig] at hA ⊢
        exact ⟨hA, digitChar_isDig _ hm⟩
      · rw [hrw, digitsVal_snoc, hV, digitChar_digVal _ hm]
        exact Nat.div_add_mod n 10
      · rw [hrw]
        simp

theorem natRepr_spec (n : Nat) :
    allDig (natRepr n) = true ∧ digitsVal (natRepr n) = n ∧ natRepr n ≠ [] := by
  have h1 : 0 < n + 1 := Nat.succ_pos n
  have h2 : n < 10 ^ (n + 1) := by
    calc n < 10 ^ n := Nat.lt_pow_self (by omega) n
      _ ≤ 10 ^ (n + 1) := Nat.pow_le_pow_right (by omega) (Nat.le_succ n)
  exact natReprAux_spec (n + 1) n h1 h2

theorem isDig_not_space {c : Char} (h : isDig c = true) : isSpace c = false := by
  simp [isDig] at h
  simp [isSpace]
  omega

theorem isDig_ne_plus {c : Char} (h : isDig c = true) : c ≠ '+' := by
  intro he; subst he; simp [isDig] at h

theorem isDig_ne_minus {c : Char} (h : isDig c = true) : c ≠ '-' := by
  intro he; subst he; simp [isDig] at h

theorem allDig_mem {cs : List Char} (h : allDig cs = true) {c : Char} (hc : c ∈ cs) :
    isDig c = true := by
  simp [allDig, List.all_eq_true] at h
  exact h c hc

theorem dropWhile_no_space {cs : List Char} (h : ∀ c ∈ cs, isSpace c = false) :
    cs.dropWhile isSpace = cs := by
  cases cs with
  | nil => rfl
  | cons c tl =>
    have := h c (List.mem_cons_self c tl)
    simp [List.dropWhile_cons, this]

theorem pyStrip_allDig {cs : List Char} (h : allDig cs = true) : pyStrip cs = cs := by
  have hs : ∀ c ∈ cs, isSpace c = false := fun c hc => isDig_not_space (allDig_mem h hc)
  have hs2 : ∀ c ∈ cs.reverse, isSpace c = false := by
    intro c hc; exact hs c (List.mem_reverse.mp hc)
  unfold pyStrip
  rw [dropWhile_no_space hs, dropWhile_no_space hs2, List.reverse_reverse]

theorem pyIntL_natRepr (n : Nat) : pyIntL (natRepr n) = some (Int.ofNat n) := by
  obtain ⟨hA, hV, hN⟩ := natRepr_spec n
  have hstrip : pyStrip (natRepr n) = natRepr n := pyStrip_allDig hA
  unfold pyIntL
  rw [hstrip]
  cases h : natRepr n with
  | nil => exact absurd h hN
  | cons c ds =>
    rw [h] at hA hV
    have hc : isDig c = true := allDig_mem hA (List.mem_cons_self c ds)
    simp only [if_neg (isDig_ne_plus hc), if_neg (isDig_ne_minus hc), if_pos hA, hV]

theorem splitOnChar_no_sep (sep : Char) :
    ∀ cs : List Char, (∀ c ∈ cs, c ≠ sep) → splitOnChar sep cs = [cs] := by
  intro cs
  induction cs with
  | nil => intro _; rfl
  | cons c tl ih =>
    intro h
    have hc : c ≠ sep := h c (List.mem_cons_self c tl)
    have htl := ih (fun x hx => h x (List.mem_cons_of_mem c hx))
    simp [splitOnChar, hc, htl]

theorem splitOnChar_mid (sep : Char) (ys : List Char) :
    ∀ xs : List Char, (∀ c ∈ xs, c ≠ sep) →
      splitOnChar sep (xs ++ sep :: ys) = xs :: splitOnChar sep ys := by
  intro xs
  induction xs with
  | nil => intro _; simp [splitOnChar]
  | cons x tl ih =>
    intro h
    have hx : x ≠ sep := h x (List.mem_cons_self x tl)
    have htl := ih (fun c hc => h c (List.mem_cons_of_mem x hc))
    simp [splitOnChar, hx, htl]

theorem startsWithL_append (p rest : List Char) : startsWithL p (p ++ rest) = true := by
  induction p with
  | nil => rfl
  | cons c tl ih => simp [startsWithL, ih]

theorem natRepr_no_hyphen (n : Nat) : ∀ c ∈ natRepr n, c ≠ '-' := by
  intro c hc
  exact isDig_ne_minus (allDig_mem (natRepr_spec n).1 hc)

theorem pyDecodeL_encodeL (n : Nat) : pyDecodeL (encodeL n) = some (Int.ofNat n) := by
  unfold pyDecodeL encodeL
  rw [if_pos (startsWithL_append "get-".data (natRepr n))]
  have hrw : "get-".data ++ natRepr n = ['g', 'e', 't'] ++ '-' :: natRepr n := rfl
  rw [hrw, splitOnChar_mid '-' (natRepr n) ['g', 'e', 't'] (by decide),
    splitOnChar_no_sep '-' (natRepr n) (natRepr_no_hyphen n)]
  simp [pyIntL_natRepr n]

theorem pyDecodeL_encodeL_junk (n : Nat) (tail : List Char) :
    pyDecodeL (encodeL n ++ '-' :: tail) = some (Int.ofNat n) := by
  unfold pyDecodeL encodeL
  rw [List.append_assoc,
    if_pos (startsWithL_append "get-".data (natRepr n ++ '-' :: tail))]
  have hrw : "get-".data ++ (natRepr n ++ '-' :: tail)
      = ['g', 'e', 't'] ++ '-' :: (natRepr n ++ '-' :: tail) := rfl
  rw [hrw, splitOnChar_mid '-' (natRepr n ++ '-' :: tail) ['g', 'e', 't'] (by decide),
    splitOnChar_mid '-' tail (natRepr n) (natRepr_no_hyphen n)]
  simp [pyIntL_natRepr n]

/-! ## Handler lemmas -/

/-- The per-record removal flag of `reapAttempt` is the conjunction of the
three call outcomes: the `try` block aborts at the first failure. -/
theorem reapAttempt_removed (env : ReapEnv) (r : DeliveryRecord) :
    (reapAttempt env r).2 = (env.deleteOk r && env.notifyOk r && env.removeOk r) := by
  cases hd : env.deleteOk r <;> cases hn : env.notifyOk r <;> cases hm : env.removeOk r <;>
    simp [reapAttempt, hd, hn, hm]

/-! ## Claims -/

/-- C1 (amended): a due DeliveryRecord is removed from storage by a Reaper
cycle exactly when the platform deletion, the recipient notification and
the storage delete all succeed for it in that cycle; a failure of the
platform deletion skips the notification and the storage removal, and a
failure of the notification skips the storage removal, leaving the record
in storage for the next cycle.  (The spec claims the baseline removes the
record regardless of the first two steps; the per-record `try` block on
lines 182-190 aborts the chain instead.) -/
theorem reaper_removes_due_record_iff_all_steps_succeed (env : ReapEnv) (now : Nat)
    (ledger : List DeliveryRecord) (r : DeliveryRecord)
    (hfind : env.findOk = true) (hmem : r ∈ ledger) :
    (r ∉ auto_delete_cycle env now ledger ↔
      r.delete_at ≤ now ∧ env.deleteOk r = true ∧ env.notifyOk r = true ∧
        env.removeOk r = true) ∧
    (env.deleteOk r = false →
      (reapAttempt env r).1 = [.deleteCall r, .logDeleteError r]) ∧
    (env.deleteOk r = true → env.notifyOk r = false →
      (reapAttempt env r).1 = [.deleteCall r, .notifyCall r, .logDeleteError r]) := by
  refine ⟨?_, ?_, ?_⟩
  · simp only [auto_delete_cycle, hfind, if_true, List.mem_filter, hmem, true_and,
      reapAttempt_removed]
    cases hd : env.deleteOk r <;> cases hn : env.notifyOk r <;> cases hm : env.removeOk r <;>
      by_cases hdue : r.delete_at ≤ now <;> simp [hdue]
  · intro hd; simp [reapAttempt, hd]
  · intro hd hn; simp [reapAttempt, hd, hn]

/-- C1 counterexample: a ledger with one due record whose platform
deletion fails; the claimed baseline would forget the record by the end
of the cycle, but the cycle leaves it in storage. -/
theorem reaper_keeps_due_record_on_delete_failure :
    (⟨42, 7, 100⟩ : DeliveryRecord).delete_at ≤ 100 ∧
    auto_delete_cycle ⟨true, fun _ => false, fun _ => true, fun _ => true⟩ 100
        [⟨42, 7, 100⟩] = [⟨42, 7, 100⟩] := by
  decide

theorem reaper_removes_due_record_iff_all_steps_succeed_witness :
    ((⟨42, 7, 100⟩ : DeliveryRecord) ∉
        auto_delete_cycle ⟨true, fun _ => true, fun _ => true, fun _ => true⟩ 100
          [⟨42, 7, 100⟩] ↔
      (⟨42, 7, 100⟩ : DeliveryRecord).delete_at ≤ 100 ∧
        (fun _ => true) (⟨42, 7, 100⟩ : DeliveryRecord) = true ∧
        (fun _ => true) (⟨42, 7, 100⟩ : DeliveryRecord) = true ∧
        (fun _ => true) (⟨42, 7, 100⟩ : DeliveryRecord) = true) ∧
    ((fun _ => true) (⟨42, 7, 100⟩ : DeliveryRecord) = false →
      (reapAttempt ⟨true, fun _ => true, fun _ => true, fun _ => true⟩ ⟨42, 7, 100⟩).1
        = [.deleteCall ⟨42, 7, 100⟩, .logDeleteError ⟨42, 7, 100⟩]) ∧
    ((fun _ => true) (⟨42, 7, 100⟩ : DeliveryRecord) = true →
      (fun _ => true) (⟨42, 7, 100⟩ : DeliveryRecord) = false →
      (reapAttempt ⟨true, fun _ => true, fun _ => true, fun _ => true⟩ ⟨42, 7, 100⟩).1
        = [.deleteCall ⟨42, 7, 100⟩, .notifyCall ⟨42, 7, 100⟩,
            .logDeleteError ⟨42, 7, 100⟩]) :=
  reaper_removes_due_record_iff_all_steps_succeed
    ⟨true, fun _ => true, fun _ => true, fun _ => true⟩ 100 [⟨42, 7, 100⟩] ⟨42, 7, 100⟩
    rfl (by decide)

/-- C2: a due record still in storage is removed by a Reaper cycle only
when the platform-side deletion (and the storage delete itself)
succeeded; otherwise it survives the cycle and, the expiry being
absolute, is again in the due set read by every later cycle — a due
record is never dropped from storage without a successful deletion. -/
theorem reaper_never_drops_due_record_without_deletion (env : ReapEnv)
    (now now' : Nat) (ledger : List DeliveryRecord) (r : DeliveryRecord)
    (hmem : r ∈ ledger) (hdue : r.delete_at ≤ now) :
    (r ∉ auto_delete_cycle env now ledger →
      env.deleteOk r = true ∧ env.removeOk r = true) ∧
    (r ∈ auto_delete_cycle env now ledger → now ≤ now' →
      r ∈ dueRecords now' (auto_delete_cycle env now ledger)) := by
  constructor
  · intro hout
    cases hfind : env.findOk with
    | false =>
      exact absurd (by simpa [auto_delete_cycle, hfind] using hmem) hout
    | true =>
      simp only [auto_delete_cycle, hfind, if_true, List.mem_filter, hmem, true_and,
        reapAttempt_removed] at hout
      cases hd : env.deleteOk r <;> cases hn : env.notifyOk r <;>
        cases hm : env.removeOk r <;> simp_all [hdue]
  · intro hin hle
    have : r.delete_at ≤ now' := le_trans hdue hle
    simp [dueRecords, List.mem_filter, hin, this]

theorem reaper_never_drops_due_record_without_deletion_witness :
    ((⟨42, 7, 100⟩ : DeliveryRecord) ∉
        auto_delete_cycle ⟨true, fun _ => true, fun _ => false, fun _ => true⟩ 100
          [⟨42, 7, 100⟩] →
      (fun _ => true) (⟨42, 7, 100⟩ : DeliveryRecord) = true ∧
        (fun _ => true) (⟨42, 7, 100⟩ : DeliveryRecord) = true) ∧
    ((⟨42, 7, 100⟩ : DeliveryRecord) ∈
        auto_delete_cycle ⟨true, fun _ => true, fun _ => false, fun _ => true⟩ 100
          [⟨42, 7, 100⟩] →
      100 ≤ 160 →
      (⟨42, 7, 100⟩ : DeliveryRecord) ∈
        dueRecords 160
          (auto_delete_cycle ⟨true, fun _ => true, fun _ => false, fun _ => true⟩ 100
            [⟨42, 7, 100⟩])) :=
  reaper_never_drops_due_record_without_deletion
    ⟨true, fun _ => true, fun _ => false, fun _ => true⟩ 100 160 [⟨42, 7, 100⟩]
    ⟨42, 7, 100⟩ (by decide) (by decide)

/-- C3 (amended): in a recipient request, if the copy-to-requester call
or the DeliveryRecord insert raises, the outer `except` only logs the
error — no user-facing failure message is sent — and the attempt leaves
no DeliveryRecord in storage.  (The spec claims the failure is reported
to the requester; line 172 only calls `logger.error`.) -/
theorem start_failure_only_logged_and_leaves_no_record (env : StartEnv) (u : Nat)
    (a : List Char) (rest : List (List Char)) (mid : Int) (sid now : Nat)
    (ledger : List DeliveryRecord)
    (hgate : is_user_joined env.lookup = true)
    (hpre : startsWithL "get-".data a = true)
    (hdec : pyDecodeL a = some mid) :
    (env.copyResult = none →
      start env u (a :: rest) now ledger = ([.copyCall u mid, .logStartError], ledger)) ∧
    (env.copyResult = some sid → env.notifyOk = true → env.insertOk = false →
      start env u (a :: rest) now ledger
        = ([.copyCall u mid, .notifyCall u, .insertCall ⟨u, sid, now + 3600⟩,
            .logStartError], ledger)) := by
  constructor
  · intro hcopy
    simp [start, hgate, hpre, hdec, hcopy]
  · intro hcopy hnot hins
    simp [start, hgate, hpre, hdec, hcopy, hnot, hins]

/-- C3 counterexample: the gate passes, the payload decodes, the copy
call raises; the trace holds no user-facing message at all — the failure
is not reported to the requester (it is only logged). -/
theorem start_copy_failure_reports_nothing :
    (start ⟨.ok "member", none, true, true⟩ 42 ["get-500".data] 0 []).1.filter
        isUserMessage = [] ∧
    (start ⟨.ok "member", none, true, true⟩ 42 ["get-500".data] 0 []).1
      = [.copyCall 42 500, .logStartError] ∧
    (start ⟨.ok "member", none, true, true⟩ 42 ["get-500".data] 0 []).2 = [] := by
  decide

theorem start_failure_only_logged_and_leaves_no_record_witness :
    ((⟨.ok "member", none, true, true⟩ : StartEnv).copyResult = none →
      start ⟨.ok "member", none, true, true⟩ 42 ["get-500".data] 0 []
        = ([.copyCall 42 500, .logStartError], [])) ∧
    ((⟨.ok "member", none, true, true⟩ : StartEnv).copyResult = some 77 →
      (⟨.ok "member", none, true, true⟩ : StartEnv).notifyOk = true →
      (⟨.ok "member", none, true, true⟩ : StartEnv).insertOk = false →
      start ⟨.ok "member", none, true, true⟩ 42 ["get-500".data] 0 []
        = ([.copyCall 42 500, .notifyCall 42, .insertCall ⟨42, 77, 3600⟩,
            .logStartError], [])) :=
  start_failure_only_logged_and_leaves_no_record ⟨.ok "member", none, true, true⟩ 42
    "get-500".data [] 500 77 0 [] (by decide) (by decide) (by decide)

/-- C4: after a recipient request in which the gate passes, the payload
decodes to `mid`, the copy succeeds returning `sid`, the auto-delete
notice goes out and the insert succeeds, exactly one new DeliveryRecord
is appended: recipient the requester, message reference the value the
copy returned, expiry the delivery time plus exactly one hour (3600 s). -/
theorem start_success_appends_exactly_one_record (env : StartEnv) (u : Nat)
    (a : List Char) (rest : List (List Char)) (mid : Int) (sid now : Nat)
    (ledger : List DeliveryRecord)
    (hgate : is_user_joined env.lookup = true)
    (hpre : startsWithL "get-".data a = true)
    (hdec : pyDecodeL a = some mid)
    (hcopy : env.copyResult = some sid)
    (hnot : env.notifyOk = true) (hins : env.insertOk = true) :
    start env u (a :: rest) now ledger
      = ([.copyCall u mid, .notifyCall u, .insertCall ⟨u, sid, now + 3600⟩],
         ledger ++ [⟨u, sid, now + 3600⟩]) := by
  simp [start, hgate, hpre, hdec, hcopy, hnot, hins]

theorem start_success_appends_exactly_one_record_witness :
    start ⟨.ok "member", some 77, true, true⟩ 42 ["get-500".data] 10 [⟨9, 9, 9⟩]
      = ([.copyCall 42 500, .notifyCall 42, .insertCall ⟨42, 77, 3610⟩],
         [⟨9, 9, 9⟩] ++ [⟨42, 77, 3610⟩]) :=
  start_success_appends_exactly_one_record ⟨.ok "member", some 77, true, true⟩ 42
    "get-500".data [] 500 77 10 [⟨9, 9, 9⟩] (by decide) (by decide) (by decide)
    (by decide) (by decide) (by decide)

/-- C5 (amended): `Decode` only reads the text between the first and the
second hyphen: any string `get-<n>-<tail>` decodes to `n`, so strings
that are not exactly `get-` followed by an integer can still yield an id.
A string that does not start with `get-` is `MalformedPayload` and the
handler (gate passed) answers it with the welcome menu; a `get-` string
whose decode raises is only logged, with no user-facing failure report.
In both malformed cases no copy is made and no DeliveryRecord is
inserted (the ledger is returned unchanged). -/
theorem decode_reads_second_segment_and_malformed_has_no_side_effect
    (env : StartEnv) (u : Nat) (s : List Char) (rest : List (List Char))
    (now : Nat) (ledger : List DeliveryRecord) (n : Nat) (tail : List Char)
    (hgate : is_user_joined env.lookup = true) :
    (startsWithL "get-".data s = false →
      pyDecodeL s = none ∧
        start env u (s :: rest) now ledger = ([.welcome], ledger)) ∧
    (startsWithL "get-".data s = true → pyDecodeL s = none →
      start env u (s :: rest) now ledger = ([.logStartError], ledger)) ∧
    pyDecodeL (encodeL n ++ '-' :: tail) = some (Int.ofNat n) := by
  refine ⟨?_, ?_, pyDecodeL_encodeL_junk n tail⟩
  · intro hpre
    have hdec : pyDecodeL s = none := by simp [pyDecodeL, hpre]
    exact ⟨hdec, by simp [start, hgate, hpre]⟩
  · intro hpre hdec
    simp [start, hgate, hpre, hdec]

theorem decode_reads_second_segment_and_malformed_has_no_side_effect_witness :
    (startsWithL "get-".data "hello".data = false →
      pyDecodeL "hello".data = none ∧
        start ⟨.ok "member", some 77, true, true⟩ 42 ["hello".data] 0 []
          = ([.welcome], [])) ∧
    (startsWithL "get-".data "hello".data = true → pyDecodeL "hello".data = none →
      start ⟨.ok "member", some 77, true, true⟩ 42 ["hello".data] 0 []
        = ([.logStartError], [])) ∧
    pyDecodeL (encodeL 5 ++ '-' :: "junk".data) = some (Int.ofNat 5) :=
  decode_reads_second_segment_and_malformed_has_no_side_effect
    ⟨.ok "member", some 77, true, true⟩ 42 "hello".data [] 0 [] 5 "junk".data
    (by decide)

/-- C5 counterexample: `"5-junk"` is not a parseable integer, so
`"get-5-junk"` is not of the form `get-<integer>`, yet `Decode` returns
the guessed id 5 instead of `MalformedPayload`. -/
theorem decode_accepts_trailing_junk :
    pyIntL "5-junk".data = none ∧ decodeS "get-5-junk" = some 5 := by
  decide

/-- C6: round-trip law of the deep-link codec — decoding the payload
encoded from any vault message id returns exactly that id, so `Encode`
never produces a string `Decode` rejects. -/
theorem decode_encode_roundtrip (n : Nat) :
    pyDecodeL (encodeL n) = some (Int.ofNat n) ∧
      (pyDecodeL (encodeL n)).isSome = true := by
  refine ⟨pyDecodeL_encodeL n, ?_⟩
  rw [pyDecodeL_encodeL n]
  rfl

/-- C7: the membership gate returns `true` exactly when the lookup
succeeded with status `member`, `administrator` or `creator`; every other
status and every raised lookup error yields `false`.  The embedding is a
total function into `Bool`, mirroring that `is_user_joined` catches every
exception and never raises to its caller. -/
theorem is_user_joined_true_iff_allowed_status (r : MemberLookup) :
    is_user_joined r = true ↔
      ∃ s, r = MemberLookup.ok s ∧
        (s = "member" ∨ s = "administrator" ∨ s = "creator") := by
  cases r with
  | ok s => simp [is_user_joined, or_assoc]
  | err => simp [is_user_joined]

/-- C8: when the membership gate denies the requester, the response is
exactly the join prompt and the ledger is untouched — no copy call, no
DeliveryRecord.  The handler keeps no per-request state, so the same
payload retried once the gate passes (and the transport cooperates) runs
the full delivery and appends its record. -/
theorem gate_denial_join_prompt_only_and_retry_succeeds (env env' : StartEnv)
    (u : Nat) (a : List Char) (rest : List (List Char)) (mid : Int)
    (sid now now' : Nat) (ledger : List DeliveryRecord)
    (hdeny : is_user_joined env.lookup = false)
    (hjoin : is_user_joined env'.lookup = true)
    (hpre : startsWithL "get-".data a = true)
    (hdec : pyDecodeL a = some mid)
    (hcopy : env'.copyResult = some sid)
    (hnot : env'.notifyOk = true) (hins : env'.insertOk = true) :
    start env u (a :: rest) now ledger = ([.joinPrompt], ledger) ∧
    start env' u (a :: rest) now' ledger
      = ([.copyCall u mid, .notifyCall u, .insertCall ⟨u, sid, now' + 3600⟩],
         ledger ++ [⟨u, sid, now' + 3600⟩]) := by
  constructor
  · simp [start, hdeny]
  · simp [start, hjoin, hpre, hdec, hcopy, hnot, hins]

theorem gate_denial_join_prompt_only_and_retry_succeeds_witness :
    start ⟨.ok "left", some 77, true, true⟩ 99 ["get-500".data] 0 []
      = ([.joinPrompt], []) ∧
    start ⟨.ok "member", some 77, true, true⟩ 99 ["get-500".data] 5 []
      = ([.copyCall 99 500, .notifyCall 99, .insertCall ⟨99, 77, 3605⟩],
         [] ++ [⟨99, 77, 3605⟩]) :=
  gate_denial_join_prompt_only_and_retry_succeeds
    ⟨.ok "left", some 77, true, true⟩ ⟨.ok "member", some 77, true, true⟩ 99
    "get-500".data [] 500 77 0 5 [] (by decide) (by decide) (by decide) (by decide)
    (by decide) (by decide) (by decide)

/-- C9: `PENDING_PREVIEWS` is keyed by the admin identity, so one entry
per admin; a second thumbnail-less submission by the same admin before
resolution overwrites the first (only the second caption stays active),
entries of other identities are untouched, and the entry is removed the
moment a matching image from that admin arrives — `handle_photo` pops it
before announcing with the stored (second) caption. -/
theorem pending_preview_last_write_wins_and_pops_on_image (bu : List Char)
    (uid k : Nat) (pending : PendingMap) (env1 env2 : VideoEnv)
    (v1 v2 photoRef : Nat)
    (hk : k ≠ uid)
    (h1c : env1.copyResult = some v1) (h1t : env1.thumbOk = false)
    (h2c : env2.copyResult = some v2) (h2t : env2.thumbOk = false) :
    (handle_video env1 bu uid true true pending).2 uid = some (mkCaption bu v1) ∧
    (handle_video env2 bu uid true true
        ((handle_video env1 bu uid true true pending).2)).2 uid
      = some (mkCaption bu v2) ∧
    (handle_video env2 bu uid true true
        ((handle_video env1 bu uid true true pending).2)).2 k = pending k ∧
    (handle_photo uid true photoRef
        ((handle_video env2 bu uid true true
          ((handle_video env1 bu uid true true pending).2)).2)).2 uid = none ∧
    (handle_photo uid true photoRef
        ((handle_video env2 bu uid true true
          ((handle_video env1 bu uid true true pending).2)).2)).1
      = [.previewPost photoRef (mkCaption bu v2), .previewPostedReply] := by
  refine ⟨?_, ?_, ?_, ?_, ?_⟩ <;>
    simp [handle_video, handle_photo, h1c, h1t, h2c, h2t, hk]

theorem pending_preview_last_write_wins_and_pops_on_image_witness :
    (handle_video ⟨some 500, false⟩ "corn_bot".data 7 true true
        (fun _ => none)).2 7 = some (mkCaption "corn_bot".data 500) ∧
    (handle_video ⟨some 501, false⟩ "corn_bot".data 7 true true
        ((handle_video ⟨some 500, false⟩ "corn_bot".data 7 true true
          (fun _ => none)).2)).2 7 = some (mkCaption "corn_bot".data 501) ∧
    (handle_video ⟨some 501, false⟩ "corn_bot".data 7 true true
        ((handle_video ⟨some 500, false⟩ "corn_bot".data 7 true true
          (fun _ => none)).2)).2 8 = (fun _ => none : PendingMap) 8 ∧
    (handle_photo 7 true 3
        ((handle_video ⟨some 501, false⟩ "corn_bot".data 7 true true
          ((handle_video ⟨some 500, false⟩ "corn_bot".data 7 true true
            (fun _ => none)).2)).2)).2 7 = none ∧
    (handle_photo 7 true 3
        ((handle_video ⟨some 501, false⟩ "corn_bot".data 7 true true
          ((handle_video ⟨some 500, false⟩ "corn_bot".data 7 true true
            (fun _ => none)).2)).2)).1
      = [.previewPost 3 (mkCaption "corn_bot".data 501), .previewPostedReply] :=
  pending_preview_last_write_wins_and_pops_on_image "corn_bot".data 7 8
    (fun _ => none) ⟨some 500, false⟩ ⟨some 501, false⟩ 500 501 3
    (by decide) (by decide) (by decide) (by decide) (by decide)

/-- C10: in the delivery path the auto-delete notice is sent between the
successful copy and the record insert; if that notice raises, the outer
`except` aborts the handler before `insert_one`, so a successful copy
leaves no DeliveryRecord even when the insert itself would have
succeeded — an untracked-copy path besides the insert-failure gap. -/
theorem notify_failure_aborts_before_insert (env : StartEnv) (u : Nat)
    (a : List Char) (rest : List (List Char)) (mid : Int) (sid now : Nat)
    (ledger : List DeliveryRecord)
    (hgate : is_user_joined env.lookup = true)
    (hpre : startsWithL "get-".data a = true)
    (hdec : pyDecodeL a = some mid)
    (hcopy : env.copyResult = some sid) :
    (env.notifyOk = false → env.insertOk = true →
      start env u (a :: rest) now ledger
        = ([.copyCall u mid, .notifyCall u, .logStartError], ledger)) ∧
    (env.notifyOk = true → env.insertOk = true →
      start env u (a :: rest) now ledger
        = ([.copyCall u mid, .notifyCall u, .insertCall ⟨u, sid, now + 3600⟩],
           ledger ++ [⟨u, sid, now + 3600⟩])) := by
  constructor
  · intro hnot hins
    simp [start, hgate, hpre, hdec, hcopy, hnot]
  · intro hnot hins
    simp [start, hgate, hpre, hdec, hcopy, hnot, hins]

theorem notify_failure_aborts_before_insert_witness :
    ((⟨.ok "member", some 77, false, true⟩ : StartEnv).notifyOk = false →
      (⟨.ok "member", some 77, false, true⟩ : StartEnv).insertOk = true →
      start ⟨.ok "member", some 77, false, true⟩ 42 ["get-500".data] 0 []
        = ([.copyCall 42 500, .notifyCall 42, .logStartError], [])) ∧
    ((⟨.ok "member", some 77, false, true⟩ : StartEnv).notifyOk = true →
      (⟨.ok "member", some 77, false, true⟩ : StartEnv).insertOk = true →
      start ⟨.ok "member", some 77, false, true⟩ 42 ["get-500".data] 0 []
        = ([.copyCall 42 500, .notifyCall 42, .insertCall ⟨42, 77, 3600⟩],
           [] ++ [⟨42, 77, 3600⟩])) :=
  notify_failure_aborts_before_insert ⟨.ok "member", some 77, false, true⟩ 42
    "get-500".data [] 500 77 0 [] (by decide) (by decide) (by decide) (by decide)

end Bot
